import Mathlib

/-!
Verification of the azure-event-hubs python client core against its
natural-language specification.  The Python source is shallowly embedded:
pure fragments become Lean functions, the reactor-callback protocol handlers
become explicit state machines driven by event lists, machine integers are
Nat/Int, and Python exceptions become Except results.
-/

/-! ## Offset.selector (eventhubs/__init__.py, class Offset)

An offset value is either a raw string offset, a datetime, or an AMQP
timestamp (epoch milliseconds).  Exactly one representation is active per
instance, mirroring the single value field of the Python class.
A datetime T has microsecond resolution and is represented by its exact
count of microseconds since the epoch.  The Python code computes
(value - epoch).total_seconds() * 1000.0 in IEEE binary64 arithmetic - one
correctly rounded division by 10^6 inside timedelta.total_seconds (CPython
integer true division is correctly rounded), then one correctly rounded
multiplication by the exactly representable 1000.0 - and passes the result
to the proton timestamp constructor, whose conversion to a Python long
truncates toward zero.  The two binary64 roundings are modelled exactly
over significand-exponent integer pairs by rnd64core below (round to
nearest, ties to even, 53-bit significand, exponent unbounded: identical
to binary64 on the whole normal range, which covers every datetime). -/

inductive OffsetValue where
  | str (v : String)
  | dt (epochMicros : ℤ)
  | ts (ms : Int)
  deriving DecidableEq, Repr

def nbitsFuel : Nat → Nat → Nat
  | 0, _ => 0
  | fuel + 1, n => if n = 0 then 0 else nbitsFuel fuel (n / 2) + 1

/-- Bit length of a natural number.  The fuel bounds values by 2^4200, far
beyond the binary64 range; the recursion stops at zero long before the fuel
runs out on any input of this model. -/
def nbits (n : Nat) : Nat := nbitsFuel 4200 n

/-- Quotient, doubled remainder and denominator of (a * 2^k) / b, the
scaled integer division at the heart of correct binary rounding (a negative
k scales the denominator instead, so no bits are lost). -/
def scaledDiv (a b : Nat) (k : ℤ) : Nat × Nat × Nat :=
  let A := if 0 ≤ k then a * 2 ^ k.toNat else a
  let B := if 0 ≤ k then b else b * 2 ^ (-k).toNat
  (A / B, 2 * (A % B), B)

/-- IEEE binary64 rounding (round to nearest, ties to even) of the positive
rational a / b: returns the 53-bit significand n and the exponent e with
n * 2^e the nearest double.  The bit-length estimate puts the scaled
quotient within one binade of the significand range; the doubled remainder
decides the rounding direction, and a carry out of the significand
renormalizes. -/
def rnd64core (a b : Nat) : Nat × ℤ :=
  let d : ℤ := (nbits a : ℤ) - (nbits b : ℤ)
  let k0 : ℤ := 53 - d
  let k : ℤ :=
    if (scaledDiv a b k0).1 < 2 ^ 52 then k0 + 1
    else if 2 ^ 53 ≤ (scaledDiv a b k0).1 then k0 - 1
    else k0
  let q := (scaledDiv a b k).1
  let r2 := (scaledDiv a b k).2.1
  let B := (scaledDiv a b k).2.2
  let n := if r2 < B then q
    else if B < r2 then q + 1
    else if q % 2 = 0 then q else q + 1
  if n = 2 ^ 53 then (2 ^ 52, 1 - k) else (n, -k)

/-- The double nearest to a / b for an integer a and a positive natural b,
as a significand-exponent pair; IEEE rounding is symmetric in sign. -/
def rnd64int (a : ℤ) (b : Nat) : ℤ × ℤ :=
  if a = 0 then (0, 0)
  else
    let ne := rnd64core a.natAbs b
    (if a < 0 then -(ne.1 : ℤ) else (ne.1 : ℤ), ne.2)

/-- timedelta.total_seconds(): the exact microsecond count divided by 10^6,
correctly rounded to a double. -/
def total_seconds (epochMicros : ℤ) : ℤ × ℤ :=
  rnd64int epochMicros 1000000

/-- Multiplication of the double m * 2^e by the exactly representable
1000.0, correctly rounded: the second binary64 rounding of the pipeline. -/
def f64mul1000 (m e : ℤ) : ℤ × ℤ :=
  if m = 0 then (0, 0)
  else
    let a := 1000 * m.natAbs * (if 0 ≤ e then 2 ^ e.toNat else 1)
    let b := if 0 ≤ e then 1 else 2 ^ (-e).toNat
    let ne := rnd64core a b
    (if m < 0 then -(ne.1 : ℤ) else (ne.1 : ℤ), ne.2)

/-- Python int()/long() conversion of the double m * 2^e: truncation toward
zero, as performed by the proton timestamp constructor. -/
def pyLong (m e : ℤ) : ℤ :=
  if 0 ≤ e then m * 2 ^ e.toNat
  else if 0 ≤ m then (m.natAbs / 2 ^ (-e).toNat : Nat)
  else -((m.natAbs / 2 ^ (-e).toNat : Nat) : ℤ)

/-- The milliseconds integer a datetime offset emits: the truncation of the
double computed by (value - epoch).total_seconds() * 1000.0. -/
def dtMillis (epochMicros : ℤ) : ℤ :=
  let se := total_seconds epochMicros
  let me := f64mul1000 se.1 se.2
  pyLong me.1 me.2

namespace Offset

/-- The single-quote character U+0027, used to build the filter strings. -/
def sq : String := String.singleton (Char.ofNat 39)

/-- State of an Offset instance: its value and the inclusive flag. -/
structure State where
  value : OffsetValue
  inclusive : Bool
  deriving DecidableEq, Repr

/-- Embeds Offset.selector.  Datetime case: the double-precision
epoch-milliseconds value is truncated by the proton timestamp constructor
(dtMillis) and rendered in decimal; string case: the comparison operator
depends on the inclusive flag. -/
def selector (o : State) : String :=
  match o.value with
  | OffsetValue.dt micros =>
      "amqp.annotation.x-opt-enqueued-time > " ++ sq ++
        toString (dtMillis micros) ++ sq
  | OffsetValue.ts ms =>
      "amqp.annotation.x-opt-enqueued-time > " ++ sq ++ toString ms ++ sq
  | OffsetValue.str v =>
      let operator := if o.inclusive then ">=" else ">"
      "amqp.annotation.x-opt-offset " ++ operator ++ " " ++ sq ++ v ++ sq

end Offset

/-! ## SenderHandler (eventhubs/_impl.py)

The sender-side delivery tracker is a reactor-callback state machine.  We
embed it as a state record plus one step function per callback, driven by an
arbitrary list of reactor events.  A DeliveryEvent record is identified by a
ghost id assigned at send time; the completions list logs every invocation of
DeliveryEvent.complete(outcome, condition). -/

namespace SenderModel

/-- Proton delivery outcomes relevant to the handler. -/
inductive Outcome where
  | accepted
  | released
  | rejected
  | modified
  deriving DecidableEq, Repr

/-- SenderHandler.DeliveryEvent: the record registered by send.  id
identifies the record (its callback/state pair), start is the enqueue
time in seconds. -/
structure DeliveryEvent where
  id : Nat
  start : Nat
  deriving DecidableEq, Repr

/-- One invocation of DeliveryEvent.complete(outcome, condition).
fromTimeout marks the synthetic timeout condition built by check_timeout. -/
structure Completion where
  id : Nat
  outcome : Outcome
  fromTimeout : Bool
  deriving DecidableEq, Repr

/-- State of one SenderHandler: the pending-message queue, the outstanding
deliveries map (delivery tag to record, insertion order), the log of
completions, the DeliveryTracker timer flag, the link, the owning client
stopped flag, the clock, and fresh id/tag counters. -/
structure SenderState where
  queue : List DeliveryEvent
  deliveries : List (Nat × DeliveryEvent)
  completions : List Completion
  trackerActive : Bool
  linkOpen : Bool
  stopped : Bool
  now : Nat
  nextId : Nat
  nextTag : Nat
  deriving DecidableEq, Repr

/-- SenderHandler.TIMEOUT (seconds). -/
def TIMEOUT : Nat := 60

def initial : SenderState :=
  { queue := [], deliveries := [], completions := [], trackerActive := false,
    linkOpen := true, stopped := false, now := 0, nextId := 0, nextTag := 0 }

/-- SenderHandler.send: create a DeliveryEvent (timestamped now) and put it
on the pending queue; the injector will later fire a sendable event. -/
def send (s : SenderState) : SenderState :=
  { s with queue := s.queue ++ [⟨s.nextId, s.now⟩], nextId := s.nextId + 1 }

/-- The while loop of on_sendable: as long as the link has credit and the
queue is nonempty, transfer messages to the link, registering each record
in the deliveries map under a fresh delivery tag. -/
def transfer (credit : Nat) (s : SenderState) : SenderState :=
  let k := min credit s.queue.length
  { s with queue := s.queue.drop k,
           deliveries := s.deliveries ++
             ((s.queue.take k).enum.map fun p => (s.nextTag + p.1, p.2)),
           nextTag := s.nextTag + k }

/-- SenderHandler.on_sendable: run the transfer loop (guarded by the link
being present), then re-arm the delivery tracker if deliveries are
outstanding. -/
def on_sendable (credit : Nat) (s : SenderState) : SenderState :=
  let s1 := if s.linkOpen then transfer credit s else s
  if s1.deliveries.isEmpty then s1 else { s1 with trackerActive := true }

/-- self.deliveries.pop(dlv, None): remove and return the record keyed by
tag, if present. -/
def popTag (tag : Nat) : List (Nat × DeliveryEvent) →
    Option DeliveryEvent × List (Nat × DeliveryEvent)
  | [] => (none, [])
  | td :: rest =>
    if td.1 = tag then (some td.2, rest)
    else
      let r := popTag tag rest
      (r.1, td :: r.2)

/-- SenderHandler.on_delivery: when the delivery is updated, pop its record
from the map and complete it with the remote state; an unknown tag is
ignored. -/
def on_delivery (tag : Nat) (updated : Bool) (outcome : Outcome)
    (s : SenderState) : SenderState :=
  if updated then
    match popTag tag s.deliveries with
    | (some d, rest) =>
        { s with deliveries := rest,
                 completions := s.completions ++ [⟨d.id, outcome, false⟩] }
    | (none, _) => s
  else s

/-- The eviction test of check_timeout: elapsed time at least TIMEOUT. -/
def expiredP (now : Nat) (td : Nat × DeliveryEvent) : Bool :=
  decide (TIMEOUT ≤ now - td.2.start)

/-- SenderHandler.check_timeout: evict every overdue delivery with a
synthetic released/timeout completion, then force a flush attempt via
on_sendable. -/
def check_timeout (credit : Nat) (s : SenderState) : SenderState :=
  let expired := s.deliveries.filter (expiredP s.now)
  let s1 :=
    { s with deliveries := s.deliveries.filter (fun td => !expiredP s.now td),
             completions := s.completions ++
               expired.map (fun td => ⟨td.2.id, Outcome.released, true⟩) }
  on_sendable credit s1

/-- DeliveryTracker.on_timer_task: the timer fires only while scheduled;
it clears the task slot and runs check_timeout. -/
def on_timer (credit : Nat) (s : SenderState) : SenderState :=
  if s.trackerActive then check_timeout credit { s with trackerActive := false }
  else s

/-- SenderHandler.on_link_closed: complete every outstanding delivery record
with a released outcome, clear the map, and cancel the tracker timer.  The
pending queue is left untouched. -/
def on_link_closed (s : SenderState) : SenderState :=
  { s with completions := s.completions ++
             s.deliveries.map (fun td => ⟨td.2.id, Outcome.released, false⟩),
           deliveries := [],
           trackerActive := false }

/-- Client stop path: on_stop delegates to on_link_closed, then
ClientHandler.stop closes and frees the link; the client has set stopped. -/
def stopClient (s : SenderState) : SenderState :=
  { on_link_closed s with linkOpen := false, stopped := true }

/-- on_link_remote_close: the peer detached the link; on_link_closed runs
and the link is freed (a restart may be scheduled later). -/
def remoteClose (s : SenderState) : SenderState :=
  { on_link_closed s with linkOpen := false }

/-- ClientHandler.on_timer_task: recreate the link if it is gone and the
client is not stopped. -/
def restart (s : SenderState) : SenderState :=
  if ¬s.stopped ∧ ¬s.linkOpen then { s with linkOpen := true } else s

/-- The reactor events that drive one SenderHandler. -/
inductive SenderEvent where
  | send
  | sendable (credit : Nat)
  | delivery (tag : Nat) (updated : Bool) (outcome : Outcome)
  | timer (credit : Nat)
  | remoteClose
  | stopClient
  | restart
  | tick
  deriving DecidableEq, Repr

def step (s : SenderState) : SenderEvent → SenderState
  | .send => send s
  | .sendable c => on_sendable c s
  | .delivery t u o => on_delivery t u o s
  | .timer c => on_timer c s
  | .remoteClose => remoteClose s
  | .stopClient => stopClient s
  | .restart => restart s
  | .tick => { s with now := s.now + 1 }

def runFrom (s : SenderState) (evs : List SenderEvent) : SenderState :=
  evs.foldl step s

def run (evs : List SenderEvent) : SenderState := runFrom initial evs

/-- All record ids present anywhere in the handler: pending queue,
outstanding deliveries, completion log. -/
def allIds (s : SenderState) : List Nat :=
  s.queue.map DeliveryEvent.id ++ s.deliveries.map (fun td => td.2.id) ++
    s.completions.map Completion.id

/-- Number of completions fired for record i. -/
def compCount (s : SenderState) (i : Nat) : Nat :=
  List.count i (s.completions.map Completion.id)

/-- Occurrences of record i anywhere in the handler. -/
def idCount (s : SenderState) (i : Nat) : Nat := List.count i (allIds s)

/-- The linearity invariant: every record id occurs at most once across
queue, deliveries and completions, and ids at or above the fresh counter
are unused. -/
def Inv (s : SenderState) : Prop :=
  ∀ i, idCount s i ≤ 1 ∧ (s.nextId ≤ i → idCount s i = 0)

/-- Ids of the pending queue. -/
def queueIds (s : SenderState) : List Nat := s.queue.map DeliveryEvent.id

/-- Ids of the outstanding deliveries map. -/
def delIds (s : SenderState) : List Nat :=
  s.deliveries.map (fun td => td.2.id)


end SenderModel

/-! ## AsyncReceiver (eventhubs/async/__init__.py)

The receiver buffers arriving messages, runs credit-based flow control, and
serves an awaitable receive(count).  We embed the receiver state directly
from the source, with ghost bookkeeping: arriving messages are numbered
0, 1, 2, ... in arrival order (nextIn), nextOut counts messages that have
left the buffer, arrivals counts on_message calls since the last flow grant
and lastGrantCredit records the credit value right after that grant.  The
flows list logs every link.flow(N) call. -/

namespace ReceiverModel

/-- State of one AsyncReceiver (plus ghost fields, see above). -/
structure RecvState where
  messages : List Nat
  credit : Int
  delivered : Nat
  prefetch : Nat
  linkOpen : Bool
  closed : Bool
  waiter : Bool
  flows : List Nat
  arrivals : Nat
  lastGrantCredit : Int
  nextIn : Nat
  nextOut : Nat
  deriving DecidableEq, Repr

/-- AsyncReceiver.__init__(prefetch): empty buffer, no link, no credit. -/
def init (prefetch : Nat) : RecvState :=
  { messages := [], credit := 0, delivered := 0, prefetch := prefetch,
    linkOpen := false, closed := false, waiter := false, flows := [],
    arrivals := 0, lastGrantCredit := 0, nextIn := 0, nextOut := 0 }

/-- AsyncReceiver._check_flow: once 100 or more messages have been counted
in self.delivered and the link is up, issue link.flow(delivered), add the
grant to the local credit and reset the counter. -/
def check_flow (s : RecvState) : RecvState :=
  if 100 ≤ s.delivered ∧ s.linkOpen then
    { s with flows := s.flows ++ [s.delivered],
             credit := s.credit + s.delivered,
             delivered := 0,
             arrivals := 0,
             lastGrantCredit := s.credit + s.delivered }
  else s

/-- AsyncReceiver.on_start: record the link, grant the initial prefetch
credit with link.flow(credit) and reset the delivered counter. -/
def on_start (s : RecvState) : RecvState :=
  { s with linkOpen := true, credit := s.prefetch, delivered := 0,
           flows := s.flows ++ [s.prefetch],
           arrivals := 0, lastGrantCredit := s.prefetch }

/-- AsyncReceiver.on_stop(closed): record the closed flag, drop the link and
drain the buffer unconditionally (every buffered message is discarded).
ReceiverHandler.on_stop passes client.stopped as the flag. -/
def on_stop (closed : Bool) (s : RecvState) : RecvState :=
  { s with closed := closed, linkOpen := false, messages := [],
           nextOut := s.nextIn }

/-- AsyncReceiver.on_message: enqueue the converted EventData, decrement the
remaining credit, run _check_flow, and wake the waiter if one is parked. -/
def on_message (s : RecvState) : RecvState :=
  let s1 := { s with messages := s.messages ++ [s.nextIn],
                     credit := s.credit - 1,
                     arrivals := s.arrivals + 1,
                     nextIn := s.nextIn + 1 }
  let s2 := check_flow s1
  { s2 with waiter := false }

/-- AsyncReceiver.on_timer_task: re-run _check_flow. -/
def on_timer (s : RecvState) : RecvState := check_flow s

/-- Result of one resumption of the receive(count) loop body. -/
inductive ReceiveResult where
  | closed
  | batch (b : List Nat)
  | suspended
  deriving DecidableEq, Repr

/-- One pass of the while loop inside AsyncReceiver.receive(count): if the
receiver is closed return the eof marker, otherwise drain up to count
buffered items (incrementing self.delivered per item); return them if any,
else park a waiter and suspend. -/
def receiveResume (count : Nat) (s : RecvState) : ReceiveResult × RecvState :=
  if s.closed then (ReceiveResult.closed, s)
  else if (s.messages.take count).isEmpty then
    (ReceiveResult.suspended, { s with waiter := true })
  else
    (ReceiveResult.batch (s.messages.take count),
      { s with messages := s.messages.drop count,
               delivered := s.delivered + (s.messages.take count).length,
               nextOut := s.nextOut + (s.messages.take count).length })

/-- The events that drive one AsyncReceiver. -/
inductive RecvEvent where
  | start
  | msg
  | timer
  | stop (closed : Bool)
  | recv (count : Nat)
  deriving DecidableEq, Repr

def step (s : RecvState) : RecvEvent → RecvState
  | .start => on_start s
  | .msg => on_message s
  | .timer => on_timer s
  | .stop c => on_stop c s
  | .recv count => (receiveResume count s).2

def runFrom (s : RecvState) (evs : List RecvEvent) : RecvState :=
  evs.foldl step s

def run (prefetch : Nat) (evs : List RecvEvent) : RecvState :=
  runFrom (init prefetch) evs

/-- Buffer well-formedness: the buffer holds exactly the arrivals numbered
nextOut, nextOut+1, ..., nextIn-1, in arrival order. -/
def BufInv (s : RecvState) : Prop :=
  s.messages = List.range' s.nextOut (s.nextIn - s.nextOut) ∧
    s.nextOut ≤ s.nextIn

/-- The credit-accounting invariant: remaining credit plus arrivals since
the last grant equals the credit value right after the last grant. -/
def CreditInv (s : RecvState) : Prop :=
  s.credit + (s.arrivals : Int) = s.lastGrantCredit

/-- The scenario of the spec: prefetch 300, 150 messages delivered one at a
time, each consumed by receive(1) before the next arrives. -/
def c4Scenario : List RecvEvent :=
  RecvEvent.start ::
    (List.replicate 150 [RecvEvent.msg, RecvEvent.recv 1]).flatten

end ReceiverModel

/-! ## EventHubClientAsync.run_async and _handle_redirect
(azure/eventhub/_async/__init__.py)

run_async is an orchestration coroutine: after _start_client_async has
completed for every registered client (each client swallows its own start
exception into its error attribute), the control flow is a pure function of
the clients' error and redirected attributes.  We embed that function; the
observable effects (auth renegotiation, connection redirect, client
re-opens, teardown via stop_async) are logged as actions.  The bounded
asyncio.wait in _handle_redirect is modelled by a boolean saying whether
some not-yet-redirected client was still pending when the wait timed
out. -/

namespace ClientModel

/-- A broker redirect target (hostname plus full address). -/
structure Redirect where
  hostname : String
  address : String
  deriving DecidableEq, Repr

/-- The observable outcome of one client after _start_client_async: the
swallowed start error, if any, and the redirect information, if any. -/
structure ClientInfo where
  error : Option String
  redirected : Option Redirect
  deriving DecidableEq, Repr

/-- Observable side effects of run_async. -/
inductive Action where
  | createAuth (uri : String)
  | redirectConnection (host : String)
  | reopenClients
  | teardown
  deriving DecidableEq, Repr

/-- EventHubClientAsync._handle_redirect: if not every client has reported
a redirect, wait (bounded) for the stragglers and fail if any is still
pending; then require every redirect target to name the same hostname,
renegotiate auth against the first target, redirect the connection and
re-open every registered client. -/
def handle_redirect (clients : List ClientInfo) (waitPending : Bool) :
    Except String (List Action) :=
  let redirects := clients.filterMap (fun c => c.redirected)
  if redirects.length ≠ clients.length ∧ waitPending then
    Except.error "Some clients are attempting to redirect the connection."
  else
    match redirects with
    | [] => Except.error "no redirect target"
    | r0 :: rest =>
      if (r0 :: rest).all (fun r => r.hostname == r0.hostname) then
        Except.ok [Action.createAuth r0.address,
          Action.redirectConnection r0.hostname, Action.reopenClients]
      else
        Except.error "Multiple clients attempting to redirect to different hosts."

/-- EventHubClientAsync.run_async after all start tasks have settled:
failed collects the errors; if every client failed the first error is
raised (after stop_async teardown); if some failed their errors are
returned and redirects are ignored; otherwise redirects, if any, are
handled, a redirect error causing teardown plus raise. -/
def run_async (clients : List ClientInfo) (waitPending : Bool) :
    Except String (List String) × List Action :=
  let failed := clients.filterMap (fun c => c.error)
  let redirects := clients.filterMap (fun c => c.redirected)
  if failed ≠ [] ∧ failed.length = clients.length then
    (Except.error (failed.headD ""), [Action.teardown])
  else if failed ≠ [] then
    (Except.ok failed, [])
  else if redirects ≠ [] then
    match handle_redirect clients waitPending with
    | Except.ok acts => (Except.ok failed, acts)
    | Except.error e => (Except.error e, [Action.teardown])
  else (Except.ok [], [])

end ClientModel

/-! ## Partition pump consume loop
(eventhubsprocessor/eh_partition_pump.py) -/

namespace PumpModel

/-- Modelled from the spec: the base class (partition_pump.py, providing
pump_status, set_pump_status and is_closing) is not among the sources.  Per
section 4.5 of the spec the status values are Uninitialized, Opening,
OpenFailed, Running, Errored, Closing, Closed, and is_closing reports the
teardown states Closing/Closed.  The results below are independent of this
choice: the consume-loop guard is true whenever the status is Errored, for
every definition of is_closing. -/
def is_closing (status : String) : Bool :=
  status == "Closing" || status == "Closed"

/-- State of one EventHubPartitionPump as seen by the consume loop: the
status string, the optional intake queue, the log of messages forwarded to
process_events_async, and whether PartitionReceiveHandler has stopped the
receive client. -/
structure PumpState where
  status : String
  msg_queue : Option (List Nat)
  fwd : List Nat
  clientStopped : Bool
  deriving DecidableEq, Repr

/-- The continuation condition of PartitionReceiver.run:
while not is_closing() or pump_status equals "Errored". -/
def loopGuard (s : PumpState) : Bool :=
  !(is_closing s.status) || (s.status == "Errored")

/-- Outcome of one iteration attempt of the consume loop. -/
inductive LoopStep where
  | forwardedMsg
  | blocked
  | exited
  deriving DecidableEq, Repr

/-- One iteration of PartitionReceiver.run: while the guard holds, dequeue
the head of the intake queue (if the queue object exists) and forward it;
a missing queue makes the iteration spin and an empty queue makes
msg_queue.get() block - both produce no progress.  A false guard exits the
loop. -/
def runStep (s : PumpState) : LoopStep × PumpState :=
  if loopGuard s then
    match s.msg_queue with
    | some (m :: rest) =>
        (LoopStep.forwardedMsg,
          { s with msg_queue := some rest, fwd := s.fwd ++ [m] })
    | some [] => (LoopStep.blocked, s)
    | none => (LoopStep.blocked, s)
  else (LoopStep.exited, s)

def runSteps (n : Nat) (s : PumpState) : PumpState :=
  match n with
  | 0 => s
  | n + 1 => runSteps n (runStep s).2

/-- PartitionReceiveHandler.on_event_data: a message is admitted into the
intake queue only while the status check passes, written exactly as the
source condition parses: (not (status == "Errored")) or
(status == "IsClosing"); otherwise the receive client is stopped. -/
def on_event_data (s : PumpState) (m : Nat) : PumpState :=
  if !(s.status == "Errored") || (s.status == "IsClosing") then
    match s.msg_queue with
    | some q => { s with msg_queue := some (q ++ [m]) }
    | none => s
  else { s with clientStopped := true }

/-- PartitionReceiver.process_error_async: mark the pump errored. -/
def process_error (s : PumpState) : PumpState :=
  { s with status := "Errored" }

/-- The consume loop never reaches its exit branch from this state. -/
def neverExits (s : PumpState) : Prop :=
  ∀ n, (runStep (runSteps n s)).1 ≠ LoopStep.exited

end PumpModel

set_option maxRecDepth 100000 in
/-- Claim C8 counterexample: the claim asserts that for a datetime offset
the emitted integer contains the floor of the epoch milliseconds.  For
T = 2004-01-10 15:24:47.343000 UTC (epoch microseconds 1073748287343000,
so the exact epoch milliseconds are 1073748287343), the double pipeline
(value - epoch).total_seconds() * 1000.0 evaluates to 1073748287342.9999,
whose truncation emits 1073748287342 = floor - 1: the produced selector
string differs from the floor-based string the claim prescribes. -/
theorem c8_counterexample_datetime_not_floor :
    Offset.selector ⟨OffsetValue.dt 1073748287343000, false⟩ =
      "amqp.annotation.x-opt-enqueued-time > " ++ Offset.sq ++
        toString (1073748287342 : ℤ) ++ Offset.sq ∧
    (1073748287343 : ℤ) * 1000 = 1073748287343000 ∧
    Offset.selector ⟨OffsetValue.dt 1073748287343000, false⟩ ≠
      "amqp.annotation.x-opt-enqueued-time > " ++ Offset.sq ++
        toString (1073748287343 : ℤ) ++ Offset.sq := by
  refine ⟨by decide, by decide, by decide⟩

set_option maxRecDepth 100000 in
/-- Claim C8 (amended): Offset.selector produces bit-exact filter strings.
For a raw string offset v the expression is
"amqp.annotation.x-opt-offset >= 'v'" when inclusive and
"amqp.annotation.x-opt-offset > 'v'" otherwise (sq is the single-quote
character).  For a datetime offset the expression is
"amqp.annotation.x-opt-enqueued-time > 'm'" where m is the truncation
toward zero of the IEEE binary64 computation
(value - epoch).total_seconds() * 1000.0 (dtMillis); m usually equals the
floor of the exact epoch milliseconds - as at the spec scenario timestamp
1506968696002, evaluated in the last conjunct - but the double roundings
can make it floor - 1, as the counterexample shows. -/
theorem c8_offset_selector_format (v : String) (micros : ℤ) :
    Offset.selector ⟨OffsetValue.str v, true⟩ =
      "amqp.annotation.x-opt-offset >= " ++ Offset.sq ++ v ++ Offset.sq ∧
    Offset.selector ⟨OffsetValue.str v, false⟩ =
      "amqp.annotation.x-opt-offset > " ++ Offset.sq ++ v ++ Offset.sq ∧
    Offset.selector ⟨OffsetValue.dt micros, false⟩ =
      "amqp.annotation.x-opt-enqueued-time > " ++ Offset.sq ++
        toString (dtMillis micros) ++ Offset.sq ∧
    Offset.selector ⟨OffsetValue.dt 1506968696002000, false⟩ =
      "amqp.annotation.x-opt-enqueued-time > " ++ Offset.sq ++
        toString (1506968696002 : ℤ) ++ Offset.sq :=
  ⟨rfl, rfl, rfl, by decide⟩

namespace SenderModel

theorem idCount_decompose (s : SenderState) (i : Nat) :
    idCount s i =
      List.count i (queueIds s) + List.count i (delIds s) + compCount s i := by
  simp only [idCount, allIds, queueIds, delIds, compCount, List.count_append]

theorem compCount_le_idCount (s : SenderState) (i : Nat) :
    compCount s i ≤ idCount s i := by
  rw [idCount_decompose]; omega

theorem count_map_take_drop {α β : Type} [BEq β] (f : α → β) (k : Nat)
    (l : List α) (b : β) :
    List.count b ((l.take k).map f) + List.count b ((l.drop k).map f) =
      List.count b (l.map f) := by
  rw [← List.count_append, ← List.map_append, List.take_append_drop]

theorem count_map_filter_split {α β : Type} [DecidableEq β] (p : α → Bool)
    (f : α → β) (l : List α) (b : β) :
    List.count b ((l.filter p).map f) +
      List.count b ((l.filter fun x => !p x).map f) =
      List.count b (l.map f) := by
  have h := (List.filter_append_perm p l).map f
  rw [List.map_append] at h
  rw [← List.count_append]
  exact h.count_eq b

theorem popTag_none (tag : Nat) (l : List (Nat × DeliveryEvent)) (r : List (Nat × DeliveryEvent))
    (h : popTag tag l = (none, r)) : r = l := by
  induction l generalizing r with
  | nil => simp [popTag] at h; exact h
  | cons td tl ih =>
    rw [popTag] at h
    by_cases hc : td.1 = tag
    · rw [if_pos hc, Prod.mk.injEq] at h
      exact absurd h.1 (by simp)
    · rw [if_neg hc, Prod.mk.injEq] at h
      obtain ⟨h1, h2⟩ := h
      have hr : (popTag tag tl).2 = tl := ih (popTag tag tl).2 (by rw [← h1])
      rw [← h2, hr]

theorem popTag_some_count (tag : Nat) (l : List (Nat × DeliveryEvent))
    (d : DeliveryEvent) (rest : List (Nat × DeliveryEvent))
    (h : popTag tag l = (some d, rest)) (i : Nat) :
    List.count i (rest.map (fun td => td.2.id)) + (if d.id = i then 1 else 0) =
      List.count i (l.map fun td => td.2.id) := by
  induction l generalizing rest with
  | nil => simp [popTag] at h
  | cons td tl ih =>
    rw [popTag] at h
    by_cases hc : td.1 = tag
    · rw [if_pos hc, Prod.mk.injEq, Option.some.injEq] at h
      obtain ⟨h1, h2⟩ := h
      subst h1; subst h2
      simp only [List.map_cons, List.count_cons, beq_iff_eq]
    · rw [if_neg hc, Prod.mk.injEq] at h
      obtain ⟨h1, h2⟩ := h
      have hih := ih (popTag tag tl).2 (by rw [← h1])
      subst h2
      simp only [List.map_cons, List.count_cons]
      omega

end SenderModel

namespace SenderModel

theorem idCount_setTracker (s : SenderState) (b : Bool) (i : Nat) :
    idCount { s with trackerActive := b } i = idCount s i := rfl

theorem idCount_send (s : SenderState) (i : Nat) :
    idCount (send s) i = idCount s i + (if s.nextId = i then 1 else 0) := by
  by_cases h : s.nextId = i <;>
    simp [idCount, allIds, send, List.count_append, List.count_cons, h] <;> omega

theorem idCount_transfer (c : Nat) (s : SenderState) (i : Nat) :
    idCount (transfer c s) i = idCount s i := by
  have hmap : ∀ (l : List DeliveryEvent) (t : Nat),
      (l.enum.map (fun p => ((t + p.1, p.2) : Nat × DeliveryEvent))).map
        (fun td => td.2.id) = l.map DeliveryEvent.id := by
    intro l t
    rw [List.map_map]
    have hco : ((fun td : Nat × DeliveryEvent => td.2.id) ∘
        fun p : Nat × DeliveryEvent => ((t + p.1, p.2) : Nat × DeliveryEvent)) =
        (DeliveryEvent.id ∘ Prod.snd) := rfl
    rw [hco, ← List.map_map, List.enum_map_snd]
  simp only [idCount, allIds, transfer, List.map_append, List.count_append, hmap]
  have := count_map_take_drop DeliveryEvent.id (min c s.queue.length) s.queue i
  omega

theorem nextId_transfer (c : Nat) (s : SenderState) :
    (transfer c s).nextId = s.nextId := rfl

theorem nextId_on_sendable (c : Nat) (s : SenderState) :
    (on_sendable c s).nextId = s.nextId := by
  unfold on_sendable
  dsimp only
  split <;> split <;> rfl

theorem idCount_on_sendable (c : Nat) (s : SenderState) (i : Nat) :
    idCount (on_sendable c s) i = idCount s i := by
  unfold on_sendable
  dsimp only
  split <;> split <;>
    first
      | rfl
      | exact idCount_transfer c s i
      | exact (idCount_setTracker (transfer c s) true i).trans (idCount_transfer c s i)
      | exact idCount_setTracker s true i

theorem queue_on_sendable_closed (c : Nat) (s : SenderState) (hl : s.linkOpen = false) :
    (on_sendable c s).queue = s.queue := by
  unfold on_sendable
  simp only [hl, Bool.false_eq_true, if_false]
  split <;> rfl

theorem idCount_on_delivery (t : Nat) (u : Bool) (o : Outcome) (s : SenderState)
    (i : Nat) : idCount (on_delivery t u o s) i = idCount s i := by
  unfold on_delivery
  cases u with
  | false => simp
  | true =>
    simp only [if_true]
    rcases hp : popTag t s.deliveries with ⟨od, rest⟩
    cases od with
    | none => simp [hp]
    | some d =>
      simp only [hp]
      have hc := popTag_some_count t s.deliveries d rest hp i
      by_cases hd : d.id = i <;>
        simp only [hd, if_true, if_false] at hc <;>
        simp [idCount, allIds, List.count_append, List.count_cons, hd] <;>
        omega

theorem nextId_on_delivery (t : Nat) (u : Bool) (o : Outcome) (s : SenderState) :
    (on_delivery t u o s).nextId = s.nextId := by
  unfold on_delivery
  split
  · split <;> rfl
  · rfl

theorem idCount_check_timeout (c : Nat) (s : SenderState) (i : Nat) :
    idCount (check_timeout c s) i = idCount s i := by
  unfold check_timeout
  dsimp only
  rw [idCount_on_sendable]
  have hs := count_map_filter_split (expiredP s.now) (fun td => td.2.id)
    s.deliveries i
  have hco : (Completion.id ∘ fun td : Nat × DeliveryEvent =>
      (⟨td.2.id, Outcome.released, true⟩ : Completion)) =
      fun td : Nat × DeliveryEvent => td.2.id := rfl
  simp only [idCount, allIds, List.count_append, List.map_append, List.map_map, hco]
  omega

theorem nextId_check_timeout (c : Nat) (s : SenderState) :
    (check_timeout c s).nextId = s.nextId := by
  unfold check_timeout
  dsimp only
  rw [nextId_on_sendable]

theorem idCount_on_timer (c : Nat) (s : SenderState) (i : Nat) :
    idCount (on_timer c s) i = idCount s i := by
  unfold on_timer
  split
  · exact (idCount_check_timeout c _ i).trans (idCount_setTracker s false i)
  · rfl

theorem nextId_on_timer (c : Nat) (s : SenderState) :
    (on_timer c s).nextId = s.nextId := by
  unfold on_timer
  split
  · exact nextId_check_timeout c _
  · rfl

theorem idCount_on_link_closed (s : SenderState) (i : Nat) :
    idCount (on_link_closed s) i = idCount s i := by
  have hco : (Completion.id ∘ fun td : Nat × DeliveryEvent =>
      (⟨td.2.id, Outcome.released, false⟩ : Completion)) =
      fun td : Nat × DeliveryEvent => td.2.id := rfl
  simp only [idCount, allIds, on_link_closed, List.count_append, List.map_append,
    List.map_map, List.map_nil, List.count_nil, hco]
  omega

theorem idCount_restart (s : SenderState) (i : Nat) :
    idCount (restart s) i = idCount s i := by
  unfold restart
  split <;> rfl

theorem nextId_restart (s : SenderState) : (restart s).nextId = s.nextId := by
  unfold restart
  split <;> rfl

/-- Invariant transport along a step that preserves all id counts and the
fresh counter. -/
theorem inv_of_counts {s s1 : SenderState}
    (hc : ∀ i, idCount s1 i = idCount s i) (hn : s1.nextId = s.nextId)
    (h : Inv s) : Inv s1 := by
  intro i
  rw [hc, hn]
  exact h i

theorem inv_step (s : SenderState) (e : SenderEvent) (h : Inv s) :
    Inv (step s e) := by
  cases e with
  | send =>
    intro i
    rw [show (step s .send) = send s from rfl] at *
    rw [idCount_send]
    have h1 := (h i).1
    have h2 := (h i).2
    constructor
    · by_cases hi : s.nextId = i
      · have : idCount s i = 0 := h2 (le_of_eq hi)
        simp [hi, this]
      · simp [hi]
        exact h1
    · intro hle
      have hni : s.nextId ≠ i := by
        simp only [send] at hle
        omega
      have : s.nextId ≤ i := by
        simp only [send] at hle
        omega
      simp [hni, h2 this]
  | sendable c =>
    exact inv_of_counts (idCount_on_sendable c s) (nextId_on_sendable c s) h
  | delivery t u o =>
    exact inv_of_counts (idCount_on_delivery t u o s) (nextId_on_delivery t u o s) h
  | timer c => exact inv_of_counts (idCount_on_timer c s) (nextId_on_timer c s) h
  | remoteClose =>
    exact inv_of_counts (fun i => idCount_on_link_closed s i) rfl h
  | stopClient =>
    exact inv_of_counts (fun i => idCount_on_link_closed s i) rfl h
  | restart => exact inv_of_counts (idCount_restart s) (nextId_restart s) h
  | tick => exact inv_of_counts (fun _ => rfl) rfl h

theorem inv_initial : Inv initial := by
  intro i
  simp [idCount, allIds, initial]

theorem inv_runFrom (evs : List SenderEvent) (s : SenderState) (h : Inv s) :
    Inv (runFrom s evs) := by
  induction evs generalizing s with
  | nil => exact h
  | cons e tl ih => exact ih (step s e) (inv_step s e h)

theorem inv_run (evs : List SenderEvent) : Inv (run evs) :=
  inv_runFrom evs initial inv_initial

/-- A record that sits in the pending queue of a closed, stopped handler. -/
theorem compCount_zero_of_mem_queue (s : SenderState) (i : Nat) (hinv : Inv s)
    (hq : i ∈ queueIds s) : compCount s i = 0 := by
  have h1 := (hinv i).1
  have hpos : 0 < List.count i (queueIds s) := List.count_pos_iff.2 hq
  have hd := idCount_decompose s i
  omega

end SenderModel

namespace SenderModel

/-- on_sendable does not change the stopped flag. -/
theorem stopped_on_sendable (c : Nat) (s : SenderState) :
    (on_sendable c s).stopped = s.stopped := by
  unfold on_sendable
  dsimp only
  split <;> split <;> rfl

/-- on_sendable does not change the link state. -/
theorem linkOpen_on_sendable (c : Nat) (s : SenderState) :
    (on_sendable c s).linkOpen = s.linkOpen := by
  unfold on_sendable
  dsimp only
  split <;> split <;> rfl

theorem stopped_check_timeout (c : Nat) (s : SenderState) :
    (check_timeout c s).stopped = s.stopped := by
  unfold check_timeout
  dsimp only
  rw [stopped_on_sendable]

theorem linkOpen_check_timeout (c : Nat) (s : SenderState) :
    (check_timeout c s).linkOpen = s.linkOpen := by
  unfold check_timeout
  dsimp only
  rw [linkOpen_on_sendable]

theorem queue_check_timeout_closed (c : Nat) (s : SenderState)
    (hl : s.linkOpen = false) : (check_timeout c s).queue = s.queue := by
  unfold check_timeout
  dsimp only
  exact queue_on_sendable_closed c _ hl

/-- One step preserves the stuck configuration: client stopped, link gone,
record still pending in the queue. -/
theorem stuck_step (i : Nat) (s : SenderState) (e : SenderEvent)
    (hs : s.stopped = true) (hl : s.linkOpen = false) (hq : i ∈ queueIds s) :
    (step s e).stopped = true ∧ (step s e).linkOpen = false ∧
      i ∈ queueIds (step s e) := by
  cases e with
  | send =>
    refine ⟨hs, hl, ?_⟩
    simp only [step, send, queueIds, List.map_append]
    exact List.mem_append_left _ hq
  | sendable c =>
    refine ⟨?_, ?_, ?_⟩
    · rw [show (step s (.sendable c)).stopped = (on_sendable c s).stopped from rfl,
        stopped_on_sendable]
      exact hs
    · rw [show (step s (.sendable c)).linkOpen = (on_sendable c s).linkOpen from rfl,
        linkOpen_on_sendable]
      exact hl
    · show i ∈ queueIds (on_sendable c s)
      simp only [queueIds, queue_on_sendable_closed c s hl]
      exact hq
  | delivery t u o =>
    have hqd : ∀ f : SenderState → List DeliveryEvent,
        (∀ x dels comps, f { x with deliveries := dels, completions := comps } = f x) →
        f (on_delivery t u o s) = f s := by
      intro f hf
      unfold on_delivery
      split
      · split
        · exact hf s _ _
        · rfl
      · rfl
    refine ⟨?_, ?_, ?_⟩
    · show (on_delivery t u o s).stopped = true
      have : (on_delivery t u o s).stopped = s.stopped := by
        unfold on_delivery
        split
        · split <;> rfl
        · rfl
      rw [this]; exact hs
    · show (on_delivery t u o s).linkOpen = false
      have : (on_delivery t u o s).linkOpen = s.linkOpen := by
        unfold on_delivery
        split
        · split <;> rfl
        · rfl
      rw [this]; exact hl
    · show i ∈ queueIds (on_delivery t u o s)
      have : (on_delivery t u o s).queue = s.queue := by
        unfold on_delivery
        split
        · split <;> rfl
        · rfl
      simp only [queueIds, this]
      exact hq
  | timer c =>
    show (on_timer c s).stopped = true ∧ (on_timer c s).linkOpen = false ∧
      i ∈ queueIds (on_timer c s)
    unfold on_timer
    split
    · refine ⟨?_, ?_, ?_⟩
      · rw [stopped_check_timeout]; exact hs
      · rw [linkOpen_check_timeout]; exact hl
      · rw [queueIds,
          queue_check_timeout_closed c { s with trackerActive := false } hl]
        exact hq
    · exact ⟨hs, hl, hq⟩
  | remoteClose => exact ⟨hs, rfl, hq⟩
  | stopClient => exact ⟨rfl, rfl, hq⟩
  | restart =>
    show (restart s).stopped = true ∧ (restart s).linkOpen = false ∧
      i ∈ queueIds (restart s)
    unfold restart
    rw [if_neg (by simp [hs])]
    exact ⟨hs, hl, hq⟩
  | tick => exact ⟨hs, hl, hq⟩

theorem stuck_runFrom (i : Nat) (evs : List SenderEvent) (s : SenderState)
    (hs : s.stopped = true) (hl : s.linkOpen = false) (hq : i ∈ queueIds s) :
    (runFrom s evs).stopped = true ∧ (runFrom s evs).linkOpen = false ∧
      i ∈ queueIds (runFrom s evs) := by
  induction evs generalizing s with
  | nil => exact ⟨hs, hl, hq⟩
  | cons e tl ih =>
    obtain ⟨h1, h2, h3⟩ := stuck_step i s e hs hl hq
    exact ih (step s e) h1 h2 h3

end SenderModel

/-- Claim C1 counterexample: the claim asserts that every delivery record
registered by SenderHandler.send receives exactly one completion (never
zero).  In the run where send registers record 0 and the client then stops
(closing the link), record 0 is still sitting in the pending queue with
zero completions fired: on_link_closed only completes records in the
deliveries map, and the pending queue is never drained. -/
theorem c1_counterexample_zero_completions :
    0 ∈ SenderModel.queueIds
        (SenderModel.run [SenderModel.SenderEvent.send,
          SenderModel.SenderEvent.stopClient]) ∧
    SenderModel.compCount
        (SenderModel.run [SenderModel.SenderEvent.send,
          SenderModel.SenderEvent.stopClient]) 0 = 0 ∧
    (SenderModel.run [SenderModel.SenderEvent.send,
        SenderModel.SenderEvent.stopClient]).stopped = true := by
  decide

/-- Claim C1 (amended): for every sequence of reactor events, every delivery
record completes at most once (never two completions); exactly-once fails:
a record that is still in the pending queue when the client has stopped and
the link is closed never completes, under any continuation of the run. -/
theorem c1_delivery_completes_at_most_once
    (evs evs2 : List SenderModel.SenderEvent) (i : Nat) :
    SenderModel.compCount (SenderModel.run evs) i ≤ 1 ∧
    ((SenderModel.run evs).stopped = true →
      (SenderModel.run evs).linkOpen = false →
      i ∈ SenderModel.queueIds (SenderModel.run evs) →
      SenderModel.compCount
        (SenderModel.runFrom (SenderModel.run evs) evs2) i = 0) := by
  constructor
  · have h := SenderModel.inv_run evs
    exact le_trans (SenderModel.compCount_le_idCount _ i) (h i).1
  · intro hs hl hq
    have hinv : SenderModel.Inv (SenderModel.runFrom (SenderModel.run evs) evs2) :=
      SenderModel.inv_runFrom evs2 _ (SenderModel.inv_run evs)
    obtain ⟨_, _, hq2⟩ := SenderModel.stuck_runFrom i evs2 _ hs hl hq
    exact SenderModel.compCount_zero_of_mem_queue _ i hinv hq2

/-- Witness for C1 (amended), at the concrete run send-then-stop continued
by restart, sendable, timer and tick events. -/
theorem c1_delivery_completes_at_most_once_witness :
    SenderModel.compCount
      (SenderModel.run [SenderModel.SenderEvent.send,
        SenderModel.SenderEvent.stopClient]) 0 ≤ 1 ∧
    SenderModel.compCount
      (SenderModel.runFrom
        (SenderModel.run [SenderModel.SenderEvent.send,
          SenderModel.SenderEvent.stopClient])
        [SenderModel.SenderEvent.restart, SenderModel.SenderEvent.sendable 5,
          SenderModel.SenderEvent.tick, SenderModel.SenderEvent.timer 3]) 0 = 0 := by
  have h := c1_delivery_completes_at_most_once
    [SenderModel.SenderEvent.send, SenderModel.SenderEvent.stopClient]
    [SenderModel.SenderEvent.restart, SenderModel.SenderEvent.sendable 5,
      SenderModel.SenderEvent.tick, SenderModel.SenderEvent.timer 3] 0
  exact ⟨h.1, h.2 (by decide) (by decide) (by decide)⟩

/-- Claim C6 counterexample: the claim asserts that on link closure the
pending (not-yet-transferred) message queue is drained.  After send followed
by the client-stop link closure, the pending queue still holds the
untransferred record: on_link_closed does not touch the queue. -/
theorem c6_counterexample_queue_not_drained :
    (SenderModel.run [SenderModel.SenderEvent.send,
        SenderModel.SenderEvent.stopClient]).queue ≠ [] := by
  decide

/-- Claim C6 (amended): when the link is closed (locally via stop or
remotely via peer close), every outstanding delivery record is immediately
completed with a released outcome, the timeout timer is cancelled, and no
flush is attempted; the pending queue is left untouched (it is not
drained). -/
theorem c6_link_close_releases_outstanding (s : SenderModel.SenderState) :
    ((SenderModel.step s SenderModel.SenderEvent.stopClient).completions =
        s.completions ++ s.deliveries.map
          (fun td => ⟨td.2.id, SenderModel.Outcome.released, false⟩) ∧
      (SenderModel.step s SenderModel.SenderEvent.stopClient).deliveries = [] ∧
      (SenderModel.step s SenderModel.SenderEvent.stopClient).trackerActive = false ∧
      (SenderModel.step s SenderModel.SenderEvent.stopClient).queue = s.queue ∧
      (SenderModel.step s SenderModel.SenderEvent.stopClient).nextTag = s.nextTag) ∧
    ((SenderModel.step s SenderModel.SenderEvent.remoteClose).completions =
        s.completions ++ s.deliveries.map
          (fun td => ⟨td.2.id, SenderModel.Outcome.released, false⟩) ∧
      (SenderModel.step s SenderModel.SenderEvent.remoteClose).deliveries = [] ∧
      (SenderModel.step s SenderModel.SenderEvent.remoteClose).trackerActive = false ∧
      (SenderModel.step s SenderModel.SenderEvent.remoteClose).queue = s.queue ∧
      (SenderModel.step s SenderModel.SenderEvent.remoteClose).nextTag = s.nextTag) :=
  ⟨⟨rfl, rfl, rfl, rfl, rfl⟩, ⟨rfl, rfl, rfl, rfl, rfl⟩⟩

namespace ReceiverModel

theorem take_range' (c a k : Nat) :
    (List.range' a k).take c = List.range' a (min c k) := by
  induction c generalizing a k with
  | zero => simp
  | succ c ih =>
    cases k with
    | zero => simp
    | succ k =>
      rw [List.range'_succ, List.take_succ_cons, ih (a + 1) k,
        Nat.succ_min_succ, List.range'_succ]

theorem drop_range' (c a k : Nat) :
    (List.range' a k).drop c = List.range' (a + min c k) (k - c) := by
  induction c generalizing a k with
  | zero => simp
  | succ c ih =>
    cases k with
    | zero => simp
    | succ k =>
      rw [List.range'_succ, List.drop_succ_cons, ih (a + 1) k]
      congr 1 <;> omega

theorem messages_check_flow (s : RecvState) :
    (check_flow s).messages = s.messages := by
  unfold check_flow
  split <;> rfl

theorem nextIn_check_flow (s : RecvState) :
    (check_flow s).nextIn = s.nextIn := by
  unfold check_flow
  split <;> rfl

theorem nextOut_check_flow (s : RecvState) :
    (check_flow s).nextOut = s.nextOut := by
  unfold check_flow
  split <;> rfl

theorem closed_check_flow (s : RecvState) :
    (check_flow s).closed = s.closed := by
  unfold check_flow
  split <;> rfl

theorem messages_on_message (s : RecvState) :
    (on_message s).messages = s.messages ++ [s.nextIn] := by
  show (check_flow _).messages = _
  rw [messages_check_flow]

theorem nextIn_on_message (s : RecvState) :
    (on_message s).nextIn = s.nextIn + 1 := by
  show (check_flow _).nextIn = _
  rw [nextIn_check_flow]

theorem nextOut_on_message (s : RecvState) :
    (on_message s).nextOut = s.nextOut := by
  show (check_flow _).nextOut = _
  rw [nextOut_check_flow]

theorem closed_on_message (s : RecvState) :
    (on_message s).closed = s.closed := by
  show (check_flow _).closed = _
  rw [closed_check_flow]

/-- Buffer well-formedness is preserved by every receiver step, and the
next-out cursor never moves backwards. -/
theorem bufInv_step (s : RecvState) (e : RecvEvent) (h : BufInv s) :
    BufInv (step s e) ∧ s.nextOut ≤ (step s e).nextOut := by
  obtain ⟨hm, hle⟩ := h
  cases e with
  | start => exact ⟨⟨hm, hle⟩, le_refl _⟩
  | msg =>
    refine ⟨⟨?_, ?_⟩, ?_⟩
    · rw [show (step s RecvEvent.msg) = on_message s from rfl,
        messages_on_message, nextIn_on_message, nextOut_on_message, hm,
        show s.nextIn + 1 - s.nextOut = (s.nextIn - s.nextOut) + 1 by omega,
        List.range'_concat]
      have he : s.nextOut + 1 * (s.nextIn - s.nextOut) = s.nextIn := by omega
      rw [he]
    · rw [show (step s RecvEvent.msg) = on_message s from rfl,
        nextIn_on_message, nextOut_on_message]
      omega
    · rw [show (step s RecvEvent.msg) = on_message s from rfl,
        nextOut_on_message]
  | timer =>
    refine ⟨⟨?_, ?_⟩, ?_⟩
    · rw [show (step s RecvEvent.timer) = check_flow s from rfl,
        messages_check_flow, nextIn_check_flow, nextOut_check_flow]
      exact hm
    · rw [show (step s RecvEvent.timer) = check_flow s from rfl,
        nextIn_check_flow, nextOut_check_flow]
      exact hle
    · rw [show (step s RecvEvent.timer) = check_flow s from rfl,
        nextOut_check_flow]
  | stop c =>
    refine ⟨⟨?_, le_refl _⟩, hle⟩
    show ([] : List Nat) = List.range' s.nextIn (s.nextIn - s.nextIn)
    rw [Nat.sub_self]
    rfl
  | recv count =>
    show BufInv (receiveResume count s).2 ∧
      s.nextOut ≤ (receiveResume count s).2.nextOut
    unfold receiveResume
    by_cases hc : s.closed = true
    · rw [if_pos hc]
      exact ⟨⟨hm, hle⟩, le_refl _⟩
    · rw [if_neg hc]
      by_cases he : (s.messages.take count).isEmpty = true
      · rw [if_pos he]
        exact ⟨⟨hm, hle⟩, le_refl _⟩
      · rw [if_neg he]
        have hlen : (s.messages.take count).length =
            min count (s.nextIn - s.nextOut) := by
          rw [List.length_take, hm, List.length_range']
        have hpos : 0 < min count (s.nextIn - s.nextOut) := by
          rcases Nat.eq_zero_or_pos (min count (s.nextIn - s.nextOut)) with h0 | h0
          · exfalso
            apply he
            rw [hm, take_range', List.range'_eq_nil.2 h0]
            rfl
          · exact h0
        refine ⟨⟨?_, ?_⟩, ?_⟩
        · show s.messages.drop count =
            List.range' (s.nextOut + (s.messages.take count).length)
              (s.nextIn - (s.nextOut + (s.messages.take count).length))
          rw [hlen, hm, drop_range']
          congr 1
          omega
        · show s.nextOut + (s.messages.take count).length ≤ s.nextIn
          rw [hlen]
          omega
        · show s.nextOut ≤ s.nextOut + (s.messages.take count).length
          omega

end ReceiverModel

namespace ReceiverModel

theorem creditInv_check_flow (s : RecvState) (h : CreditInv s) :
    CreditInv (check_flow s) := by
  unfold check_flow
  split
  · show s.credit + (s.delivered : Int) + ((0 : Nat) : Int) =
      s.credit + (s.delivered : Int)
    simp
  · exact h

theorem creditInv_step (s : RecvState) (e : RecvEvent) (h : CreditInv s) :
    CreditInv (step s e) := by
  cases e with
  | start =>
    show ((s.prefetch : Int)) + ((0 : Nat) : Int) = (s.prefetch : Int)
    simp
  | msg =>
    show CreditInv { check_flow _ with waiter := false }
    have h1 : CreditInv { s with messages := s.messages ++ [s.nextIn],
                                 credit := s.credit - 1,
                                 arrivals := s.arrivals + 1,
                                 nextIn := s.nextIn + 1 } := by
      show s.credit - 1 + ((s.arrivals + 1 : Nat) : Int) = s.lastGrantCredit
      rw [← h]
      push_cast
      ring
    have h2 := creditInv_check_flow _ h1
    exact h2
  | timer => exact creditInv_check_flow s h
  | stop c => exact h
  | recv count =>
    show CreditInv (receiveResume count s).2
    unfold receiveResume
    by_cases hc : s.closed = true
    · rw [if_pos hc]; exact h
    · rw [if_neg hc]
      by_cases he : (s.messages.take count).isEmpty = true
      · rw [if_pos he]; exact h
      · rw [if_neg he]; exact h

theorem creditInv_runFrom (evs : List RecvEvent) (s : RecvState)
    (h : CreditInv s) : CreditInv (runFrom s evs) := by
  induction evs generalizing s with
  | nil => exact h
  | cons e tl ih => exact ih (step s e) (creditInv_step s e h)

theorem bufInv_runFrom (evs : List RecvEvent) (s : RecvState) (h : BufInv s) :
    BufInv (runFrom s evs) ∧ s.nextOut ≤ (runFrom s evs).nextOut := by
  induction evs generalizing s with
  | nil => exact ⟨h, le_refl _⟩
  | cons e tl ih =>
    obtain ⟨h1, h2⟩ := bufInv_step s e h
    obtain ⟨h3, h4⟩ := ih (step s e) h1
    exact ⟨h3, le_trans h2 h4⟩

theorem bufInv_init (p : Nat) : BufInv (init p) := ⟨rfl, le_refl 0⟩

theorem bufInv_run (p : Nat) (evs : List RecvEvent) : BufInv (run p evs) :=
  (bufInv_runFrom evs (init p) (bufInv_init p)).1

end ReceiverModel

/-- Claim C2: a resumption of AsyncReceiver.receive(count) with count > 0 at
any reachable receiver state returns at most count items, and exactly the
oldest buffered arrivals in arrival order (a prefix of the buffer, which is
the consecutive run of arrival numbers starting at nextOut); while the
receiver is not closed it never returns an empty batch (with an empty
buffer it suspends); and it returns the closed marker only when the
receiver has transitioned to closed. -/
theorem c2_receive_order_bound_closed (p : Nat)
    (evs : List ReceiverModel.RecvEvent) (count : Nat)
    (s : ReceiverModel.RecvState) (hc : 0 < count)
    (hs : s = ReceiverModel.run p evs) :
    ((ReceiverModel.receiveResume count s).1 =
        ReceiverModel.ReceiveResult.closed → s.closed = true) ∧
    (∀ b, (ReceiverModel.receiveResume count s).1 =
        ReceiverModel.ReceiveResult.batch b →
      s.closed = false ∧ b ≠ [] ∧ b.length ≤ count ∧ b <+: s.messages ∧
        b = List.range' s.nextOut b.length) ∧
    (s.closed = false → s.messages = [] →
      (ReceiverModel.receiveResume count s).1 =
        ReceiverModel.ReceiveResult.suspended) := by
  have hbuf : ReceiverModel.BufInv s := hs ▸ ReceiverModel.bufInv_run p evs
  refine ⟨?_, ?_, ?_⟩
  · intro hres
    by_cases hcl : s.closed = true
    · exact hcl
    · exfalso
      unfold ReceiverModel.receiveResume at hres
      rw [if_neg hcl] at hres
      by_cases he : (s.messages.take count).isEmpty = true
      · rw [if_pos he] at hres
        exact ReceiverModel.ReceiveResult.noConfusion hres
      · rw [if_neg he] at hres
        exact ReceiverModel.ReceiveResult.noConfusion hres
  · intro b hres
    by_cases hcl : s.closed = true
    · exfalso
      unfold ReceiverModel.receiveResume at hres
      rw [if_pos hcl] at hres
      exact ReceiverModel.ReceiveResult.noConfusion hres
    · unfold ReceiverModel.receiveResume at hres
      rw [if_neg hcl] at hres
      by_cases he : (s.messages.take count).isEmpty = true
      · exfalso
        rw [if_pos he] at hres
        exact ReceiverModel.ReceiveResult.noConfusion hres
      · rw [if_neg he] at hres
        have hb : b = s.messages.take count :=
          (ReceiverModel.ReceiveResult.batch.injEq .. ▸ hres).symm
        have hbr : b = List.range' s.nextOut
            (min count (s.nextIn - s.nextOut)) := by
          rw [hb, hbuf.1, ReceiverModel.take_range']
        have hblen : b.length = min count (s.nextIn - s.nextOut) := by
          rw [hbr, List.length_range']
        refine ⟨by simpa using hcl, ?_, ?_, ?_, ?_⟩
        · intro hnil
          rw [hnil] at hb
          exact he (by rw [← hb]; rfl)
        · rw [hb, List.length_take]
          exact min_le_left _ _
        · rw [hb]
          exact List.take_prefix count s.messages
        · rw [hblen]
          exact hbr
  · intro hcl hmsg
    unfold ReceiverModel.receiveResume
    rw [if_neg (by simp [hcl]), if_pos (by simp [hmsg])]

/-- Witness for C2 at prefetch 300 with two arrivals and receive(2): the
resumption returns the nonempty in-order batch of both arrivals. -/
theorem c2_receive_order_bound_closed_witness :
    (ReceiverModel.receiveResume 2
        (ReceiverModel.run 300 [ReceiverModel.RecvEvent.start,
          ReceiverModel.RecvEvent.msg, ReceiverModel.RecvEvent.msg])).1 =
      ReceiverModel.ReceiveResult.batch [0, 1] ∧
    ((ReceiverModel.run 300 [ReceiverModel.RecvEvent.start,
        ReceiverModel.RecvEvent.msg, ReceiverModel.RecvEvent.msg]).closed = false ∧
      ([0, 1] : List Nat) ≠ [] ∧ ([0, 1] : List Nat).length ≤ 2 ∧
      ([0, 1] : List Nat) <+:
        (ReceiverModel.run 300 [ReceiverModel.RecvEvent.start,
          ReceiverModel.RecvEvent.msg, ReceiverModel.RecvEvent.msg]).messages ∧
      ([0, 1] : List Nat) = List.range'
        (ReceiverModel.run 300 [ReceiverModel.RecvEvent.start,
          ReceiverModel.RecvEvent.msg, ReceiverModel.RecvEvent.msg]).nextOut
        ([0, 1] : List Nat).length) := by
  have h := c2_receive_order_bound_closed 300
    [ReceiverModel.RecvEvent.start, ReceiverModel.RecvEvent.msg,
      ReceiverModel.RecvEvent.msg] 2 _ (by decide) rfl
  exact ⟨by decide, h.2.1 [0, 1] (by decide)⟩

/-- Claim C3 counterexample: after start (credit 300 granted) and a single
delivered message with no consumption, the remaining-credit counter plus
the delivered-since-last-grant counter of the source (self.delivered) is
299, not the 300 of the last grant: self.delivered counts consumption in
receive, not delivery. -/
theorem c3_counterexample_credit_sum :
    (ReceiverModel.run 300 [ReceiverModel.RecvEvent.start,
        ReceiverModel.RecvEvent.msg]).flows = [300] ∧
    (ReceiverModel.run 300 [ReceiverModel.RecvEvent.start,
        ReceiverModel.RecvEvent.msg]).lastGrantCredit = 300 ∧
    ¬ ((ReceiverModel.run 300 [ReceiverModel.RecvEvent.start,
          ReceiverModel.RecvEvent.msg]).credit +
        ((ReceiverModel.run 300 [ReceiverModel.RecvEvent.start,
          ReceiverModel.RecvEvent.msg]).delivered : Int) =
        (ReceiverModel.run 300 [ReceiverModel.RecvEvent.start,
          ReceiverModel.RecvEvent.msg]).lastGrantCredit) := by
  decide

/-- Claim C3 (amended): at every reachable receiver state, the remaining
credit counter plus the number of messages the link delivered (on_message
calls) since the last flow grant equals the credit value immediately after
the last grant.  The counter that participates is the arrivals count, not
the source self.delivered counter, which counts messages consumed by
receive. -/
theorem c3_credit_plus_arrivals_invariant (p : Nat)
    (evs : List ReceiverModel.RecvEvent) :
    (ReceiverModel.run p evs).credit +
        ((ReceiverModel.run p evs).arrivals : Int) =
      (ReceiverModel.run p evs).lastGrantCredit :=
  ReceiverModel.creditInv_runFrom evs (ReceiverModel.init p) (by simp [ReceiverModel.CreditInv, ReceiverModel.init])

set_option maxRecDepth 40000 in
/-- Claim C4 counterexample: with prefetch 300, delivering 150 messages one
at a time (on_message only, nothing consumed) issues NO re-grant at all:
the only flow call is the initial 300 grant, and the delivered counter is
still zero, because self.delivered counts messages consumed by receive, not
messages delivered by the link.  The claim predicts exactly one re-grant of
size 100 after message 100. -/
theorem c4_counterexample_delivery_does_not_trigger_regrant :
    (ReceiverModel.run 300 (ReceiverModel.RecvEvent.start ::
        List.replicate 150 ReceiverModel.RecvEvent.msg)).flows = [300] ∧
    (ReceiverModel.run 300 (ReceiverModel.RecvEvent.start ::
        List.replicate 150 ReceiverModel.RecvEvent.msg)).delivered = 0 := by
  decide

set_option maxRecDepth 80000 in
/-- Claim C4 (amended): flow re-grants are triggered by downstream
consumption as observed at delivery or timer callbacks: the delivered
counter counts messages returned by receive, and at the first _check_flow
(run from on_message or on_timer_task) with the link open and delivered at
least 100, flow(delivered) is issued, credit grows by that amount and the
counter resets to zero.  In the spec scenario (prefetch=300, 150 messages
each consumed as it arrives) exactly one re-grant, of size 100, fires at
the arrival of message 101, and a remainder of 50 accrues with no further
grant. -/
theorem c4_regrant_follows_consumption :
    ((ReceiverModel.run 300 ReceiverModel.c4Scenario).flows = [300, 100] ∧
      (ReceiverModel.run 300 ReceiverModel.c4Scenario).delivered = 50) ∧
    (∀ s : ReceiverModel.RecvState, 100 ≤ s.delivered → s.linkOpen = true →
      (ReceiverModel.check_flow s).flows = s.flows ++ [s.delivered] ∧
      (ReceiverModel.check_flow s).credit = s.credit + (s.delivered : Int) ∧
      (ReceiverModel.check_flow s).delivered = 0) := by
  constructor
  · constructor <;> decide
  · intro s h1 h2
    refine ⟨?_, ?_, ?_⟩ <;> simp [ReceiverModel.check_flow, h1, h2]

/-- Witness for C4 (amended) at a concrete state with 120 consumed messages
counted and the link open. -/
theorem c4_regrant_follows_consumption_witness :
    (100 ≤ (120 : Nat) ∧
      (ReceiverModel.check_flow
        { messages := [], credit := 5, delivered := 120, prefetch := 300,
          linkOpen := true, closed := false, waiter := false, flows := [300],
          arrivals := 0, lastGrantCredit := 0, nextIn := 0,
          nextOut := 0 }).flows = [300, 120] ∧
      (ReceiverModel.check_flow
        { messages := [], credit := 5, delivered := 120, prefetch := 300,
          linkOpen := true, closed := false, waiter := false, flows := [300],
          arrivals := 0, lastGrantCredit := 0, nextIn := 0,
          nextOut := 0 }).delivered = 0) := by
  have h := c4_regrant_follows_consumption.2
    { messages := [], credit := 5, delivered := 120, prefetch := 300,
      linkOpen := true, closed := false, waiter := false, flows := [300],
      arrivals := 0, lastGrantCredit := 0, nextIn := 0, nextOut := 0 }
    (by decide) (by decide)
  exact ⟨by decide, h.1, h.2.2⟩

/-- Claim C10: AsyncReceiver.on_stop unconditionally empties the internal
message buffer whatever the stop flag says, and any batch returned by a
receive resumption after the stop contains only messages that arrived after
the stop: the discarded buffered messages (all with arrival numbers below
the nextIn cursor at stop time) can never be returned. -/
theorem c10_on_stop_discards_buffer (p : Nat)
    (evs evs2 : List ReceiverModel.RecvEvent) (c : Bool) (count : Nat)
    (b : List Nat)
    (hb : (ReceiverModel.receiveResume count
        (ReceiverModel.runFrom
          (ReceiverModel.step (ReceiverModel.run p evs)
            (ReceiverModel.RecvEvent.stop c)) evs2)).1 =
      ReceiverModel.ReceiveResult.batch b) :
    (ReceiverModel.step (ReceiverModel.run p evs)
        (ReceiverModel.RecvEvent.stop c)).messages = [] ∧
    ∀ i ∈ b, (ReceiverModel.run p evs).nextIn ≤ i := by
  constructor
  · rfl
  · have hbuf : ReceiverModel.BufInv (ReceiverModel.run p evs) :=
      ReceiverModel.bufInv_run p evs
    have h0 := ReceiverModel.bufInv_step (ReceiverModel.run p evs)
      (ReceiverModel.RecvEvent.stop c) hbuf
    have hn0 : (ReceiverModel.step (ReceiverModel.run p evs)
        (ReceiverModel.RecvEvent.stop c)).nextOut =
        (ReceiverModel.run p evs).nextIn := rfl
    obtain ⟨hbuf2, hmono⟩ := ReceiverModel.bufInv_runFrom evs2 _ h0.1
    rw [hn0] at hmono
    set t := ReceiverModel.runFrom
      (ReceiverModel.step (ReceiverModel.run p evs)
        (ReceiverModel.RecvEvent.stop c)) evs2 with ht
    intro i hi
    unfold ReceiverModel.receiveResume at hb
    by_cases hcl : t.closed = true
    · rw [if_pos hcl] at hb
      exact absurd hb (by simp)
    · rw [if_neg hcl] at hb
      by_cases he : (t.messages.take count).isEmpty = true
      · rw [if_pos he] at hb
        exact absurd hb (by simp)
      · rw [if_neg he] at hb
        have hbt : b = t.messages.take count :=
          (ReceiverModel.ReceiveResult.batch.injEq .. ▸ hb).symm
        rw [hbt, hbuf2.1, ReceiverModel.take_range'] at hi
        have := (List.mem_range'_1.1 hi).1
        omega

/-- Witness for C10: after a buffered arrival is discarded by stop(false),
a later arrival (number 1) is the only message a receive resumption can
return, and it is at or after the stop-time cursor. -/
theorem c10_on_stop_discards_buffer_witness :
    (ReceiverModel.step
        (ReceiverModel.run 300 [ReceiverModel.RecvEvent.start,
          ReceiverModel.RecvEvent.msg])
        (ReceiverModel.RecvEvent.stop false)).messages = [] ∧
    ∀ i ∈ ([1] : List Nat),
      (ReceiverModel.run 300 [ReceiverModel.RecvEvent.start,
        ReceiverModel.RecvEvent.msg]).nextIn ≤ i := by
  have h := c10_on_stop_discards_buffer 300
    [ReceiverModel.RecvEvent.start, ReceiverModel.RecvEvent.msg]
    [ReceiverModel.RecvEvent.msg] false 1 [1] (by decide)
  exact ⟨h.1, h.2⟩

/-- Claim C5: for every set of N registered clients (N at least 1): if all
N fail to start, run_async raises the first error and tears down the
connection; if some but fewer than N fail, run_async does not raise and
returns exactly the failed clients' errors in registration order; and when
none failed (and no redirect is pending) it returns the empty list. -/
theorem c5_run_async_partial_failure (clients : List ClientModel.ClientInfo)
    (wp : Bool)
    (hn : 0 < clients.length) :
    ((clients.filterMap (fun c => c.error)).length = clients.length →
      (∃ e, (ClientModel.run_async clients wp).1 = Except.error e) ∧
        ClientModel.Action.teardown ∈ (ClientModel.run_async clients wp).2) ∧
    (0 < (clients.filterMap (fun c => c.error)).length →
      (clients.filterMap (fun c => c.error)).length < clients.length →
      (ClientModel.run_async clients wp).1 =
        Except.ok (clients.filterMap (fun c => c.error))) ∧
    (clients.filterMap (fun c => c.error) = [] →
      clients.filterMap (fun c => c.redirected) = [] →
      (ClientModel.run_async clients wp).1 = Except.ok []) := by
  refine ⟨?_, ?_, ?_⟩
  · intro hall
    have hne : clients.filterMap (fun c => c.error) ≠ [] := by
      intro h0
      rw [h0] at hall
      simp at hall
      omega
    unfold ClientModel.run_async
    rw [if_pos ⟨hne, hall⟩]
    exact ⟨⟨_, rfl⟩, by simp⟩
  · intro hpos hlt
    have hne : clients.filterMap (fun c => c.error) ≠ [] := by
      intro h0
      rw [h0] at hpos
      simp at hpos
    have hnall : ¬ ((clients.filterMap (fun c => c.error)) ≠ [] ∧
        (clients.filterMap (fun c => c.error)).length = clients.length) := by
      intro ⟨_, h⟩
      omega
    unfold ClientModel.run_async
    rw [if_neg hnall, if_pos hne]
  · intro hno hred
    unfold ClientModel.run_async
    rw [if_neg (by intro ⟨h, _⟩; exact h hno),
      if_neg (by intro h; exact h hno),
      if_neg (by intro h; exact h hred)]

/-- Witness for C5 at three concrete client sets: both clients failed (run
raises and tears down), one of two failed (run returns exactly that error),
and none failed (run returns the empty list). -/
theorem c5_run_async_partial_failure_witness :
    ((∃ e, (ClientModel.run_async
        [⟨some "boom1", none⟩, ⟨some "boom2", none⟩] false).1 =
        Except.error e) ∧
      ClientModel.Action.teardown ∈ (ClientModel.run_async
        [⟨some "boom1", none⟩, ⟨some "boom2", none⟩] false).2) ∧
    ((ClientModel.run_async [⟨some "boom1", none⟩, ⟨none, none⟩] false).1 =
      Except.ok ["boom1"]) ∧
    ((ClientModel.run_async [⟨none, none⟩, ⟨none, none⟩] false).1 =
      Except.ok []) := by
  refine ⟨(c5_run_async_partial_failure
      [⟨some "boom1", none⟩, ⟨some "boom2", none⟩] false (by decide)).1
      (by decide), ?_, ?_⟩
  · exact (c5_run_async_partial_failure
      [⟨some "boom1", none⟩, ⟨none, none⟩] false (by decide)).2.1
      (by decide) (by decide)
  · exact (c5_run_async_partial_failure
      [⟨none, none⟩, ⟨none, none⟩] false (by decide)).2.2
      (by decide) (by decide)

/-- Claim C9: during redirect handling, if any two redirected clients
report targets with different hostnames then _handle_redirect raises an
error and produces none of the redirect effects (no auth renegotiation, no
connection redirect, no client re-open); and whenever _handle_redirect
succeeds, every redirect target's hostname equals the first one's and the
effects are exactly renegotiating auth against the first target, then
redirecting the connection to it, then re-opening every registered
client. -/
theorem c9_redirect_consensus (clients : List ClientModel.ClientInfo)
    (wp : Bool) :
    (∀ r1 r2, r1 ∈ clients.filterMap (fun c => c.redirected) →
      r2 ∈ clients.filterMap (fun c => c.redirected) →
      r1.hostname ≠ r2.hostname →
      ∃ e, ClientModel.handle_redirect clients wp = Except.error e) ∧
    (∀ acts, ClientModel.handle_redirect clients wp = Except.ok acts →
      ∃ r0 rest, clients.filterMap (fun c => c.redirected) = r0 :: rest ∧
        (∀ r ∈ clients.filterMap (fun c => c.redirected),
          r.hostname = r0.hostname) ∧
        acts = [ClientModel.Action.createAuth r0.address,
          ClientModel.Action.redirectConnection r0.hostname,
          ClientModel.Action.reopenClients]) := by
  constructor
  · intro r1 r2 h1 h2 hne
    unfold ClientModel.handle_redirect
    by_cases hw : (clients.filterMap (fun c => c.redirected)).length ≠
        clients.length ∧ wp = true
    · rw [if_pos hw]
      exact ⟨_, rfl⟩
    · rw [if_neg hw]
      clear hw
      generalize clients.filterMap (fun c => c.redirected) = rs at h1 h2 ⊢
      cases rs with
      | nil => exact absurd h1 (by simp)
      | cons r0 rest =>
        dsimp only
        have hnall : ¬ ((r0 :: rest).all
            (fun r => r.hostname == r0.hostname) = true) := by
          intro hall
          rw [List.all_eq_true] at hall
          have e1 := hall r1 h1
          have e2 := hall r2 h2
          rw [beq_iff_eq] at e1 e2
          exact hne (e1.trans e2.symm)
        rw [if_neg hnall]
        exact ⟨_, rfl⟩
  · intro acts hok
    unfold ClientModel.handle_redirect at hok
    by_cases hw : (clients.filterMap (fun c => c.redirected)).length ≠
        clients.length ∧ wp = true
    · rw [if_pos hw] at hok
      exact absurd hok (by simp)
    · rw [if_neg hw] at hok
      clear hw
      generalize hgen : clients.filterMap (fun c => c.redirected) = rs at hok ⊢
      cases rs with
      | nil => exact absurd hok (by simp)
      | cons r0 rest =>
        dsimp only at hok
        by_cases hall : ((r0 :: rest).all
            (fun r => r.hostname == r0.hostname) = true)
        · rw [if_pos hall] at hok
          refine ⟨r0, rest, rfl, ?_, ?_⟩
          · intro r hr
            have := (List.all_eq_true.1 hall) r hr
            rwa [beq_iff_eq] at this
          · exact (Except.ok.injEq .. ▸ hok).symm
        · rw [if_neg hall] at hok
          exact absurd hok (by simp)

/-- Witness for C9: two clients redirected to different hostnames make
_handle_redirect fail; two clients redirected to the same hostname make it
succeed with exactly the auth, redirect and re-open effects. -/
theorem c9_redirect_consensus_witness :
    (∃ e, ClientModel.handle_redirect
        [⟨none, some ⟨"hostA", "amqps-a"⟩⟩, ⟨none, some ⟨"hostB", "amqps-b"⟩⟩]
        false = Except.error e) ∧
    (∃ r0 rest,
      ([⟨none, some ⟨"hostA", "amqps-a"⟩⟩,
        ⟨none, some ⟨"hostA", "amqps-a2"⟩⟩] :
          List ClientModel.ClientInfo).filterMap (fun c => c.redirected) =
        r0 :: rest ∧
      (∀ r ∈ ([⟨none, some ⟨"hostA", "amqps-a"⟩⟩,
          ⟨none, some ⟨"hostA", "amqps-a2"⟩⟩] :
            List ClientModel.ClientInfo).filterMap (fun c => c.redirected),
        r.hostname = r0.hostname) ∧
      [ClientModel.Action.createAuth "amqps-a",
        ClientModel.Action.redirectConnection "hostA",
        ClientModel.Action.reopenClients] =
        [ClientModel.Action.createAuth r0.address,
          ClientModel.Action.redirectConnection r0.hostname,
          ClientModel.Action.reopenClients]) := by
  constructor
  · exact (c9_redirect_consensus
      [⟨none, some ⟨"hostA", "amqps-a"⟩⟩, ⟨none, some ⟨"hostB", "amqps-b"⟩⟩]
      false).1 ⟨"hostA", "amqps-a"⟩ ⟨"hostB", "amqps-b"⟩ (by decide) (by decide)
      (by decide)
  · exact (c9_redirect_consensus
      [⟨none, some ⟨"hostA", "amqps-a"⟩⟩, ⟨none, some ⟨"hostA", "amqps-a2"⟩⟩]
      false).2 _ rfl

namespace PumpModel

theorem status_runStep (s : PumpState) : (runStep s).2.status = s.status := by
  unfold runStep
  split
  · split <;> rfl
  · rfl

theorem status_runSteps (n : Nat) (s : PumpState) :
    (runSteps n s).status = s.status := by
  induction n generalizing s with
  | zero => rfl
  | succ n ih => rw [runSteps, ih, status_runStep]

theorem guard_of_errored (s : PumpState) (h : s.status = "Errored") :
    loopGuard s = true := by
  unfold loopGuard is_closing
  rw [h]
  rfl

theorem no_exit_of_errored (n : Nat) (s : PumpState)
    (h : s.status = "Errored") :
    (runStep (runSteps n s)).1 ≠ LoopStep.exited := by
  have hst : (runSteps n s).status = "Errored" := by
    rw [status_runSteps]; exact h
  unfold runStep
  rw [if_pos (guard_of_errored _ hst)]
  split <;> simp

theorem drain_of_errored (q : List Nat) : ∀ s : PumpState,
    s.status = "Errored" → s.msg_queue = some q →
    runSteps q.length s =
      { s with msg_queue := some [], fwd := s.fwd ++ q } := by
  induction q with
  | nil =>
    intro s h hq
    show s = _
    rw [List.append_nil, ← hq]
  | cons a as ih =>
    intro s h hq
    have hstep : runStep s = (LoopStep.forwardedMsg,
        { s with msg_queue := some as, fwd := s.fwd ++ [a] }) := by
      unfold runStep
      rw [if_pos (guard_of_errored s h), hq]
    rw [show runSteps (a :: as).length s = runSteps as.length (runStep s).2
        from rfl, hstep]
    rw [ih { s with msg_queue := some as, fwd := s.fwd ++ [a] } h rfl]
    simp

end PumpModel

/-- Claim C7 counterexample: from a Running pump that takes a receive-path
fault (process_error_async sets the status to Errored), with the intake
queue already drained, the consume loop guard stays true forever: every
iteration blocks on the empty queue and the loop never reaches its exit
branch, contradicting the claimed termination. -/
theorem c7_counterexample_consume_loop_never_exits :
    (PumpModel.runStep
        (PumpModel.process_error ⟨"Running", some [], [], false⟩)).1 =
      PumpModel.LoopStep.blocked ∧
    PumpModel.neverExits
      (PumpModel.process_error ⟨"Running", some [], [], false⟩) := by
  constructor
  · rfl
  · intro n
    exact PumpModel.no_exit_of_errored n _ rfl

/-- Claim C7 (amended): when a pump in Running transitions to Errored on a
receive-path fault, every message already in the intake queue is still
forwarded to the processor, in order (the loop keeps draining while
Errored), and no new message is admitted afterwards (on_event_data instead
stops the receive client); but the consume loop does NOT terminate: while
the status stays Errored its guard remains true, and after draining it
blocks on the empty queue forever. -/
theorem c7_errored_drains_and_blocks (s : PumpModel.PumpState)
    (q : List Nat) (m n : Nat) (h : s.status = "Errored")
    (hq : s.msg_queue = some q) :
    PumpModel.runSteps q.length s =
      { s with msg_queue := some [], fwd := s.fwd ++ q } ∧
    (PumpModel.on_event_data s m).msg_queue = s.msg_queue ∧
    (PumpModel.on_event_data s m).clientStopped = true ∧
    (PumpModel.runStep (PumpModel.runSteps n s)).1 ≠
      PumpModel.LoopStep.exited := by
  refine ⟨PumpModel.drain_of_errored q s h hq, ?_, ?_,
    PumpModel.no_exit_of_errored n s h⟩
  · unfold PumpModel.on_event_data
    rw [if_neg (by rw [h]; simp)]
  · unfold PumpModel.on_event_data
    rw [if_neg (by rw [h]; simp)]

/-- Witness for C7 (amended) at a concrete errored pump holding two
buffered messages. -/
theorem c7_errored_drains_and_blocks_witness :
    PumpModel.runSteps 2 ⟨"Errored", some [5, 7], [2], false⟩ =
      ⟨"Errored", some [], [2, 5, 7], false⟩ ∧
    (PumpModel.on_event_data ⟨"Errored", some [5, 7], [2], false⟩ 9).msg_queue =
      some [5, 7] ∧
    (PumpModel.on_event_data
      ⟨"Errored", some [5, 7], [2], false⟩ 9).clientStopped = true ∧
    (PumpModel.runStep
        (PumpModel.runSteps 4 ⟨"Errored", some [5, 7], [2], false⟩)).1 ≠
      PumpModel.LoopStep.exited := by
  have h := c7_errored_drains_and_blocks ⟨"Errored", some [5, 7], [2], false⟩
    [5, 7] 9 4 rfl rfl
  exact ⟨h.1, h.2.1, h.2.2.1, h.2.2.2⟩
